import Mathlib

/-!
Verification of the Shopify integration backend (`src/main.py`, `src/schemas.py`).

Python strings are modelled as `List Char`; the helper `S` turns a Lean string
literal into that representation.  Machine-level concerns (HTTP transport, the
MongoDB driver) enter as explicit oracle parameters; fallible Python code is
modelled in `Except PyExc`.
-/

/-- Characters of a string literal, the model of a Python `str` value. -/
def S (s : String) : List Char := s.data

/-- Whitespace as recognised by Python's `str.strip()` on ASCII input
(space, tab, newline, carriage return, vertical tab, form feed). -/
def pyIsSpace (c : Char) : Bool :=
  c == ' ' || c == '\t' || c == '\n' || c == '\r' || c == '\x0b' || c == '\x0c'

/-- Drop the leading run of whitespace characters. -/
def dropLeadingWs : List Char → List Char
  | [] => []
  | c :: rest => if pyIsSpace c then dropLeadingWs rest else c :: rest

/-- Model of Python `str.strip()`: drop leading whitespace, then trailing
whitespace (via reversal). -/
def pyStrip (s : List Char) : List Char :=
  (dropLeadingWs ((dropLeadingWs s).reverse)).reverse

/-- Model of Python `s.replace("http://", "")` specialised to its pattern:
scan left to right, delete each non-overlapping occurrence, continue the scan
after the deleted occurrence. -/
def removeHttp : List Char → List Char
  | 'h' :: 't' :: 't' :: 'p' :: ':' :: '/' :: '/' :: rest => removeHttp rest
  | c :: rest => c :: removeHttp rest
  | [] => []

/-- Model of Python `s.replace("https://", "")` specialised to its pattern. -/
def removeHttps : List Char → List Char
  | 'h' :: 't' :: 't' :: 'p' :: 's' :: ':' :: '/' :: '/' :: rest => removeHttps rest
  | c :: rest => c :: removeHttps rest
  | [] => []

/-- Model of Python `s.split("/")[0]`: the segment before the first `/`
(the whole string when there is no `/`). -/
def beforeSlash : List Char → List Char
  | [] => []
  | c :: rest => if c == '/' then [] else c :: beforeSlash rest

/-- The canonical store-domain tail `".myshopify.com"`. -/
def msfx : List Char := S ".myshopify.com"

/-- `normalize_domain` from `src/main.py` lines 62-65:
`d = domain.strip().replace("http://", "").replace("https://", "")`,
`d = d.split("/")[0]`,
`return d if d.endswith(".myshopify.com") else f"{d}.myshopify.com"`. -/
def normalize_domain (s : List Char) : List Char :=
  let d := removeHttps (removeHttp (pyStrip s))
  let d := beforeSlash d
  if List.isSuffixOf msfx d then d else d ++ msfx

/-- Python `str.replace(pat, "")` with an arbitrary pattern: delete every
occurrence of `pat`, scanning left to right, non-overlapping, continuing after
each deleted occurrence.  Used for the spec-side rendering of the algorithm. -/
def pyReplaceDel (pat : List Char) : List Char → List Char
  | [] => []
  | c :: rest =>
    if pat.isPrefixOf (c :: rest) ∧ pat ≠ [] then
      pyReplaceDel pat (rest.drop (pat.length - 1))
    else
      c :: pyReplaceDel pat rest
  termination_by l => l.length
  decreasing_by
    · simp only [List.length_drop, List.length_cons]
      omega
    · simp only [List.length_cons]
      omega

/-- Strip `pat` from the front of `l` when it is a prefix, else leave `l`. -/
def stripLeading (pat l : List Char) : List Char :=
  if pat.isPrefixOf l then l.drop pat.length else l

/-- Rendering of claim C3's words: strip `http://` and `https://` only as
textual prefixes, take the segment before the first `/`, then append
`.myshopify.com` unless already a suffix (no whitespace stripping, since the
claim mentions none). -/
def normalize_domain_claimC3 (s : List Char) : List Char :=
  let d := stripLeading (S "https://") (stripLeading (S "http://") s)
  let d := beforeSlash d
  if List.isSuffixOf msfx d then d else d ++ msfx

/-- Amended description of the normaliser: strip surrounding whitespace, then
delete every occurrence of `http://` and then of `https://` anywhere in the
string (left-to-right, non-overlapping), take the segment before the first
`/`, and append `.myshopify.com` unless already a suffix. -/
def normalize_domain_amended (s : List Char) : List Char :=
  let d := pyReplaceDel (S "https://") (pyReplaceDel (S "http://") (pyStrip s))
  let d := beforeSlash d
  if List.isSuffixOf msfx d then d else d ++ msfx

/-! ## JSON values and Python exceptions -/

/-- JSON values, as produced by `requests.Response.json()`. -/
inductive Json where
  | jnull
  | jbool (b : Bool)
  | jnum (n : Int)
  | jstr (s : List Char)
  | jarr (xs : List Json)
  | jobj (fields : List (List Char × Json))

/-- The Python exceptions the service can surface: `AttributeError` (calling
`.get` on a non-dict), `TypeError` (`len` of an unsized value, subscripting
`None`), and FastAPI's `HTTPException`. -/
inductive PyExc where
  | attributeError
  | typeError
  | httpException (status : Nat) (detail : List Char)
deriving DecidableEq

/-- Python truthiness of a JSON value (`None`, `False`, `0`, `""`, `[]`, `{}`
are falsy). -/
def jTruthy : Json → Bool
  | .jnull => false
  | .jbool b => b
  | .jnum n => n != 0
  | .jstr s => !s.isEmpty
  | .jarr xs => !xs.isEmpty
  | .jobj fs => !fs.isEmpty

/-- Truthiness of an optional JSON value (`none` models Python `None`). -/
def jTruthyOpt : Option Json → Bool
  | none => false
  | some j => jTruthy j

/-- Truthiness of an optional error string (`None` and `""` are falsy). -/
def errTruthy : Option (List Char) → Bool
  | none => false
  | some s => !s.isEmpty

/-- Python `d.get(key, dflt)`: on a dict, the value under `key` (first
occurrence) or `dflt`; on any other value raises `AttributeError`. -/
def pyGetD (j : Json) (key : List Char) (dflt : Json) : Except PyExc Json :=
  match j with
  | .jobj fs => .ok ((List.lookup key fs).getD dflt)
  | _ => .error .attributeError

/-- Python `d.get(key)` (default `None`). -/
def pyGet (j : Json) (key : List Char) : Except PyExc (Option Json) :=
  match j with
  | .jobj fs => .ok (List.lookup key fs)
  | _ => .error .attributeError

/-- Python `len` on a JSON value: lists, strings and dicts are sized, anything
else raises `TypeError`. -/
def pyLen (j : Json) : Except PyExc Nat :=
  match j with
  | .jarr xs => .ok xs.length
  | .jstr s => .ok s.length
  | .jobj fs => .ok fs.length
  | _ => .error .typeError

/-! ## Shopify client (`shopify_get`, `src/main.py` lines 68-77)

The outbound `requests.get` call is an oracle: it either yields a response
(status code, text, and the result of parsing the body as JSON — parsing may
itself raise) or raises a transport exception with some description. -/

/-- Outcome of the underlying `requests.get` call. -/
inductive ReqOutcome where
  | response (status : Nat) (text : List Char) (jsonVal : Except (List Char) Json)
  | raised (msg : List Char)

/-- Body of `shopify_get`'s `try` block: on status 200 return
`(r.json(), None)` (propagating a JSON-decode exception), otherwise return
`(None, f"HTTP {r.status_code}: {r.text[:200]}")`; a transport exception
propagates. -/
def shopify_get_attempt (o : ReqOutcome) : Except (List Char) (Option Json × Option (List Char)) :=
  match o with
  | .raised msg => .error msg
  | .response status text jsonVal =>
    if status == 200 then
      match jsonVal with
      | .ok j => .ok (some j, none)
      | .error e => .error e
    else
      .ok (none, some (S "HTTP " ++ (Nat.repr status).data ++ S ": " ++ text.take 200))

/-- `shopify_get`: the `try`/`except Exception as e: return None, str(e)`
wrapper around the request. -/
def shopify_get (o : ReqOutcome) : Option Json × Option (List Char) :=
  match shopify_get_attempt o with
  | .ok r => r
  | .error e => (none, some e)

/-! ## Persistence model

`database.py` is imported by `src/main.py` but is not part of the sources;
the backing store is modelled as explicit state.  `db` being `None` (no
database configured) is the `none` case of `Option DBState`.  MongoDB
semantics used: `find`/`find_one` return matches in insertion order,
`update_one` updates the first matching document. -/

/-- A document of the `shopifyintegration` collection (schema
`ShopifyIntegration` in `src/schemas.py`).  `store_name` holds whatever JSON
value a `$set` wrote (the raw update bypasses schema validation). -/
structure IntegrationDoc where
  _id : Nat
  domain : List Char
  access_token : List Char
  store_name : Option Json
  scopes : Option (List (List Char))

/-- Fields of the summary payload returned by `/shopify/summary` and cached in
`datasnapshot`. -/
structure SummaryResp where
  demo : Bool
  products_count : Nat
  orders_count : Nat
  customers_count : Nat
  products : Json
  orders : Json
  customers : Json

/-- A document of the `datasnapshot` collection (schema `DataSnapshot`). -/
structure SnapshotDoc where
  _id : Nat
  domain : List Char
  data : SummaryResp

/-- The backing store: both collections plus a counter providing fresh
`_id`s for inserted documents. -/
structure DBState where
  integrations : List IntegrationDoc
  snapshots : List SnapshotDoc
  nextId : Nat

/-- Modelled from the spec: `database.py` (the Persistence Adapter) is not in
the sources.  Per §2 and §4.3 `create_document` inserts a document into the
named collection and returns its identifier; when no database is configured it
still returns some identifier but saves nothing.  This is the
`shopifyintegration` instance; the inserted document is
`ShopifyIntegration(domain=domain, access_token=token).model_dump()`. -/
def create_document_integration (st : Option DBState) (domain tok : List Char) :
    List Char × Option DBState :=
  match st with
  | none => (S "no-db", none)
  | some s =>
    ((Nat.repr s.nextId).data,
     some { s with
              integrations := s.integrations ++ [⟨s.nextId, domain, tok, none, none⟩],
              nextId := s.nextId + 1 })

/-- Modelled from the spec: the `datasnapshot` instance of `create_document`
(only reached with a configured database, since `db["datasnapshot"]` raises
first otherwise). -/
def create_document_snapshot (s : DBState) (domain : List Char) (resp : SummaryResp) : DBState :=
  { s with
      snapshots := s.snapshots ++ [⟨s.nextId, domain, resp⟩],
      nextId := s.nextId + 1 }

/-- MongoDB `update_one`: apply `g` to the first document satisfying `p`. -/
def updateFirstWhere {α : Type} (p : α → Bool) (g : α → α) : List α → List α
  | [] => []
  | d :: rest => if p d then g d :: rest else d :: updateFirstWhere p g rest

/-- `db["shopifyintegration"].find({"domain": dmn})`, as a list. -/
def domFilter (s : DBState) (dmn : List Char) : List IntegrationDoc :=
  s.integrations.filter (fun d => d.domain == dmn)

/-- `db["shopifyintegration"].find_one({"domain": dmn}) if db else None`. -/
def findIntegration (st : Option DBState) (dmn : List Char) : Option IntegrationDoc :=
  match st with
  | some s => (domFilter s dmn).head?
  | none => none

/-! ## Connect (`connect_shopify`, `src/main.py` lines 80-99) -/

/-- `$set` of `ShopifyIntegration(domain=..., access_token=...).model_dump()`:
overwrites all four schema fields (so `store_name` and `scopes` become
`None`), leaving `_id` untouched. -/
def setDocFields (domain tok : List Char) (d : IntegrationDoc) : IntegrationDoc :=
  { d with domain := domain, access_token := tok, store_name := none, scopes := none }

/-- The store after `update_one({"_id": e0._id}, {"$set": doc.model_dump()})`. -/
def connUpdState (s : DBState) (domain tok : List Char) (e0 : IntegrationDoc) : DBState :=
  { s with integrations := updateFirstWhere (fun d => d._id == e0._id) (setDocFields domain tok) s.integrations }

/-- The store after `update_one({"domain": domain}, {"$set": {"store_name": sn}})`. -/
def connNameState (s1 : DBState) (domain : List Char) (sn : Option Json) : DBState :=
  { s1 with integrations := updateFirstWhere (fun d => d.domain == domain) (fun d => { d with store_name := sn }) s1.integrations }

/-- Lines 84-90: `existing = list(db[...].find({"domain": domain})) if db else []`;
update the first `_id` match in place when found, else `create_document`.
Returns `inserted_id` and the new store state. -/
def save_integration (st : Option DBState) (domain tok : List Char) :
    List Char × Option DBState :=
  match st with
  | none => create_document_integration none domain tok
  | some s =>
    match domFilter s domain with
    | e0 :: _ => ((Nat.repr e0._id).data, some (connUpdState s domain tok e0))
    | [] => create_document_integration (some s) domain tok

/-- Line 95: `shop_name = data.get("shop", {}).get("name") if data else None`. -/
def extractShopName (data : Option Json) : Except PyExc (Option Json) :=
  match data with
  | none => .ok none
  | some j =>
    if jTruthy j then
      match pyGetD j (S "shop") (Json.jobj []) with
      | .error e => .error e
      | .ok sub => pyGet sub (S "name")
    else
      .ok none

/-- Response body of `POST /shopify/connect`. -/
structure ConnectResp where
  ok : Bool
  id : List Char
  domain : List Char
  verified : Bool
  store_name : Option Json

/-- `connect_shopify` (`src/main.py` lines 80-99).  The result of
`shopify_get(domain, token, "shop.json")` enters as the oracle `shopRes`.
Note line 97: `db["shopifyintegration"].update_one(...)` is not guarded by
`if db`, so with no database and a truthy shop name it raises `TypeError`
(`None` is not subscriptable). -/
def connect_shopify (st : Option DBState) (rawDomain tok : List Char)
    (shopRes : Option Json × Option (List Char)) :
    Except PyExc (Option DBState × ConnectResp) :=
  let domain := normalize_domain rawDomain
  let (inserted_id, st1) := save_integration st domain tok
  let (data, err) := shopRes
  let verified := !errTruthy err
  match extractShopName data with
  | .error e => .error e
  | .ok shop_name =>
    if jTruthyOpt shop_name then
      match st1 with
      | none => .error .typeError
      | some s1 =>
        .ok (some (connNameState s1 domain shop_name),
             ⟨true, inserted_id, domain, verified, shop_name⟩)
    else
      .ok (st1, ⟨true, inserted_id, domain, verified, shop_name⟩)

/-! ## Summary (`shopify_summary`, `src/main.py` lines 102-155) -/

/-- The hard-coded demo products body (lines 119-122). -/
def demoProductItems : List Json :=
  [Json.jobj [(S "id", Json.jnum 1), (S "title", Json.jstr (S "Demo T‑Shirt")),
              (S "vendor", Json.jstr (S "ShopSync")), (S "status", Json.jstr (S "active"))],
   Json.jobj [(S "id", Json.jnum 2), (S "title", Json.jstr (S "Demo Hoodie")),
              (S "vendor", Json.jstr (S "ShopSync")), (S "status", Json.jstr (S "draft"))]]

/-- The hard-coded demo orders body (lines 123-126). -/
def demoOrderItems : List Json :=
  [Json.jobj [(S "id", Json.jnum 101), (S "name", Json.jstr (S "#1001")),
              (S "financial_status", Json.jstr (S "paid")),
              (S "total_price", Json.jstr (S "49.00"))],
   Json.jobj [(S "id", Json.jnum 102), (S "name", Json.jstr (S "#1002")),
              (S "financial_status", Json.jstr (S "pending")),
              (S "total_price", Json.jstr (S "98.00"))]]

/-- The hard-coded demo customers body (lines 127-130). -/
def demoCustomerItems : List Json :=
  [Json.jobj [(S "id", Json.jnum 201), (S "first_name", Json.jstr (S "Alex")),
              (S "last_name", Json.jstr (S "Johnson")),
              (S "email", Json.jstr (S "alex@example.com"))],
   Json.jobj [(S "id", Json.jnum 202), (S "first_name", Json.jstr (S "Sam")),
              (S "last_name", Json.jstr (S "Lee")),
              (S "email", Json.jstr (S "sam@example.com"))]]

/-- The summary returned in demo mode. -/
def demoSummary : SummaryResp :=
  ⟨true, 2, 2, 2, Json.jarr demoProductItems, Json.jarr demoOrderItems,
   Json.jarr demoCustomerItems⟩

/-- `len(body.get(key, [])) if body else 0` (lines 135-137). -/
def resourceCount (body : Option Json) (key : List Char) : Except PyExc Nat :=
  match body with
  | some j =>
    if jTruthy j then
      match pyGetD j key (Json.jarr []) with
      | .ok v => pyLen v
      | .error e => .error e
    else .ok 0
  | none => .ok 0

/-- `body.get(key, []) if body else []` (lines 139-141). -/
def resourceItems (body : Option Json) (key : List Char) : Except PyExc Json :=
  match body with
  | some j => if jTruthy j then pyGetD j key (Json.jarr []) else .ok (Json.jarr [])
  | none => .ok (Json.jarr [])

/-- Lines 115-142: the demo fallback decision and the construction of the
summary payload from the three fetch results. -/
def summary_core (f1 f2 f3 : Option Json × Option (List Char)) : Except PyExc SummaryResp :=
  let (products, p_err) := f1
  let (orders, o_err) := f2
  let (customers, c_err) := f3
  let demo := errTruthy p_err && errTruthy o_err && errTruthy c_err
  let products := if demo then some (Json.jobj [(S "products", Json.jarr demoProductItems)])
                  else products
  let orders := if demo then some (Json.jobj [(S "orders", Json.jarr demoOrderItems)])
                else orders
  let customers := if demo then some (Json.jobj [(S "customers", Json.jarr demoCustomerItems)])
                   else customers
  match resourceCount products (S "products") with
  | .error e => .error e
  | .ok cp =>
    match resourceCount orders (S "orders") with
    | .error e => .error e
    | .ok co =>
      match resourceCount customers (S "customers") with
      | .error e => .error e
      | .ok cc =>
        match resourceItems products (S "products") with
        | .error e => .error e
        | .ok lp =>
          match resourceItems orders (S "orders") with
          | .error e => .error e
          | .ok lo =>
            match resourceItems customers (S "customers") with
            | .error e => .error e
            | .ok lc => .ok ⟨demo, cp, co, cc, lp, lo, lc⟩

/-- Lines 144-153: the best-effort cache write.  With no database the
subscript raises and is swallowed; `cacheFail` is the oracle for the backing
store itself raising during the upsert (also swallowed, nothing written since
the single-document operation is atomic). -/
def cache_snapshot (st : Option DBState) (domain : List Char) (resp : SummaryResp)
    (cacheFail : Bool) : Option DBState :=
  match st with
  | none => none
  | some s =>
    if cacheFail then some s
    else
      some (match (s.snapshots.filter (fun d => d.domain == domain)).head? with
            | some ex =>
              let snaps := updateFirstWhere (fun d => d._id == ex._id)
                (fun d => { d with domain := domain, data := resp }) s.snapshots
              { s with snapshots := snaps }
            | none => create_document_snapshot s domain resp)

/-- The fixed 404 detail text of line 107. -/
def notFoundMsg : List Char := S "Integration not found. Connect your store first."

/-- `shopify_summary` (`src/main.py` lines 102-155).  The three fetch results
(`products.json`, `orders.json`, `customers.json`) enter as oracles; the
integration's `access_token` is only used to issue those fetches. -/
def shopify_summary (st : Option DBState) (rawDomain : List Char)
    (f1 f2 f3 : Option Json × Option (List Char)) (cacheFail : Bool) :
    Except PyExc (Option DBState × SummaryResp) :=
  let domain := normalize_domain rawDomain
  match findIntegration st domain with
  | none => .error (.httpException 404 notFoundMsg)
  | some _ =>
    match summary_core f1 f2 f3 with
    | .error e => .error e
    | .ok resp => .ok (cache_snapshot st domain resp cacheFail, resp)

/-! ## Invariants and well-formedness predicates -/

/-- Well-formedness of the backing store's identifiers: every `_id` is below
the freshness counter and the `_id`s are pairwise distinct (MongoDB guarantees
unique `_id`s per collection). -/
def WfIds (s : DBState) : Prop :=
  (∀ i ∈ s.integrations.map (fun d => d._id), i < s.nextId) ∧
  (s.integrations.map (fun d => d._id)).Pairwise (fun a b => a ≠ b)

/-- The §3 invariant: at most one integration record per domain. -/
def InvOneRec (s : DBState) : Prop :=
  ∀ dmn : List Char, (domFilter s dmn).length ≤ 1

/-- A fetch result "returned an error" in the sense of §4.4: no body, and an
error value is present. -/
def fetchFailed (f : Option Json × Option (List Char)) : Prop :=
  f.1 = none ∧ f.2 ≠ none

/-- A well-formed fetch result for resource `key`, with `items` its payload
list: either a success whose body is a JSON object in which `key` is absent or
maps to a list, or a failure carrying a non-empty (descriptive) error string
and `items = []`. These are the shapes `shopify_get` produces for the Shopify
Admin API resources. -/
def FetchOk (f : Option Json × Option (List Char)) (key : List Char) (items : List Json) : Prop :=
  (∃ fs, f.1 = some (Json.jobj fs) ∧ f.2 = none ∧
     ((List.lookup key fs = none ∧ items = []) ∨ List.lookup key fs = some (Json.jarr items)))
  ∨ (f.1 = none ∧ (∃ e, f.2 = some e ∧ e ≠ []) ∧ items = [])

/-! ## Lemmas about the domain normaliser -/

/-- The generic replace-deletion is the identity when some character of the
pattern does not occur in the string. -/
theorem pyReplaceDel_id (pat : List Char) (ch : Char) (hch : ch ∈ pat) :
    ∀ l : List Char, ch ∉ l → pyReplaceDel pat l = l := by
  intro l
  induction l with
  | nil => intro _; simp [pyReplaceDel]
  | cons c rest ih =>
    intro hl
    rw [pyReplaceDel]
    rw [if_neg]
    · rw [ih (fun hm => hl (List.mem_cons_of_mem c hm))]
    · rintro ⟨hpre, -⟩
      exact hl ( ( List.isPrefixOf_iff_prefix.mp hpre).subset hch)

/-- The specialised scan for `http://` agrees with the generic
`str.replace`-style deletion. -/
theorem removeHttp_eq_pyReplaceDel :
    ∀ l : List Char, pyReplaceDel (S "http://") l = removeHttp l := by
  suffices H : ∀ n, ∀ l : List Char, l.length ≤ n →
      pyReplaceDel (S "http://") l = removeHttp l by
    intro l; exact H l.length l le_rfl
  intro n
  induction n with
  | zero =>
    intro l hl
    have : l = [] := by cases l with
      | nil => rfl
      | cons c rest => simp at hl
    subst this
    simp [pyReplaceDel, removeHttp]
  | succ n ih =>
    intro l hl
    match l with
    | [] => simp [pyReplaceDel, removeHttp]
    | c :: rest =>
      by_cases h : (S "http://").isPrefixOf (c :: rest) = true
      · obtain ⟨t, ht⟩ := List.isPrefixOf_iff_prefix.mp h
        have hlen := congrArg List.length ht
        rw [List.length_append] at hlen
        rw [show (S "http://").length = 7 from rfl] at hlen
        simp only [List.length_cons] at hl hlen
        rw [← ht]
        show pyReplaceDel (S "http://") ('h' :: 't' :: 't' :: 'p' :: ':' :: '/' :: '/' :: t) =
          removeHttp ('h' :: 't' :: 't' :: 'p' :: ':' :: '/' :: '/' :: t)
        rw [pyReplaceDel]
        rw [if_pos ⟨ List.isPrefixOf_iff_prefix.mpr ⟨t, rfl⟩, by decide⟩]
        have hdrop : List.drop ((S "http://").length - 1)
            ('t' :: 't' :: 'p' :: ':' :: '/' :: '/' :: t) = t := rfl
        rw [hdrop]
        rw [show removeHttp ('h' :: 't' :: 't' :: 'p' :: ':' :: '/' :: '/' :: t) =
          removeHttp t from rfl]
        exact ih t (by omega)
      · rw [pyReplaceDel]
        rw [if_neg (fun hc => h hc.1)]
        rw [ih rest (by simp only [List.length_cons] at hl; omega)]
        conv_rhs => rw [removeHttp.eq_def]
        split
        · rename_i rest' heq
          apply absurd _ h
          rw [heq]
          exact List.isPrefixOf_iff_prefix.mpr ⟨rest', rfl⟩
        · rename_i c' rest' hnomatch heq
          injection heq with h1 h2
          subst h1
          subst h2
          rfl
        · rename_i heq
          exact absurd heq (by simp)

/-- The specialised scan for `https://` agrees with the generic
`str.replace`-style deletion. -/
theorem removeHttps_eq_pyReplaceDel :
    ∀ l : List Char, pyReplaceDel (S "https://") l = removeHttps l := by
  suffices H : ∀ n, ∀ l : List Char, l.length ≤ n →
      pyReplaceDel (S "https://") l = removeHttps l by
    intro l; exact H l.length l le_rfl
  intro n
  induction n with
  | zero =>
    intro l hl
    have : l = [] := by cases l with
      | nil => rfl
      | cons c rest => simp at hl
    subst this
    simp [pyReplaceDel, removeHttps]
  | succ n ih =>
    intro l hl
    match l with
    | [] => simp [pyReplaceDel, removeHttps]
    | c :: rest =>
      by_cases h : (S "https://").isPrefixOf (c :: rest) = true
      · obtain ⟨t, ht⟩ := List.isPrefixOf_iff_prefix.mp h
        have hlen := congrArg List.length ht
        rw [List.length_append] at hlen
        rw [show (S "https://").length = 8 from rfl] at hlen
        simp only [List.length_cons] at hl hlen
        rw [← ht]
        show pyReplaceDel (S "https://")
            ('h' :: 't' :: 't' :: 'p' :: 's' :: ':' :: '/' :: '/' :: t) =
          removeHttps ('h' :: 't' :: 't' :: 'p' :: 's' :: ':' :: '/' :: '/' :: t)
        rw [pyReplaceDel]
        rw [if_pos ⟨ List.isPrefixOf_iff_prefix.mpr ⟨t, rfl⟩, by decide⟩]
        have hdrop : List.drop ((S "https://").length - 1)
            ('t' :: 't' :: 'p' :: 's' :: ':' :: '/' :: '/' :: t) = t := rfl
        rw [hdrop]
        rw [show removeHttps ('h' :: 't' :: 't' :: 'p' :: 's' :: ':' :: '/' :: '/' :: t) =
          removeHttps t from rfl]
        exact ih t (by omega)
      · rw [pyReplaceDel]
        rw [if_neg (fun hc => h hc.1)]
        rw [ih rest (by simp only [List.length_cons] at hl; omega)]
        conv_rhs => rw [removeHttps.eq_def]
        split
        · rename_i rest' heq
          apply absurd _ h
          rw [heq]
          exact List.isPrefixOf_iff_prefix.mpr ⟨rest', rfl⟩
        · rename_i c' rest' hnomatch heq
          injection heq with h1 h2
          subst h1
          subst h2
          rfl
        · rename_i heq
          exact absurd heq (by simp)

/-- `removeHttp` leaves a string with no `/` unchanged. -/
theorem removeHttp_id {l : List Char} (h : '/' ∉ l) : removeHttp l = l := by
  rw [← removeHttp_eq_pyReplaceDel]
  exact pyReplaceDel_id (S "http://") '/' (by decide) l h

/-- `removeHttps` leaves a string with no `/` unchanged. -/
theorem removeHttps_id {l : List Char} (h : '/' ∉ l) : removeHttps l = l := by
  rw [← removeHttps_eq_pyReplaceDel]
  exact pyReplaceDel_id (S "https://") '/' (by decide) l h

/-- The segment before the first slash contains no slash. -/
theorem beforeSlash_no_slash : ∀ l : List Char, '/' ∉ beforeSlash l := by
  intro l
  induction l with
  | nil => simp [beforeSlash]
  | cons c rest ih =>
    rw [beforeSlash]
    by_cases hc : c = '/'
    · simp [hc]
    · rw [if_neg (by simpa using hc)]
      intro hm
      rcases List.mem_cons.mp hm with h1 | h2
      · exact hc h1.symm
      · exact ih h2

/-- `beforeSlash` leaves a string with no `/` unchanged. -/
theorem beforeSlash_id : ∀ l : List Char, '/' ∉ l → beforeSlash l = l := by
  intro l
  induction l with
  | nil => intro _; rfl
  | cons c rest ih =>
    intro h
    have hc : c ≠ '/' := fun hh => h (hh ▸ List.mem_cons_self c rest)
    rw [beforeSlash]
    rw [if_neg (by simpa using hc)]
    rw [ih (fun hm => h (List.mem_cons_of_mem c hm))]

/-- Membership is preserved backwards through `dropLeadingWs`. -/
theorem mem_of_mem_dropLeadingWs {c : Char} :
    ∀ {l : List Char}, c ∈ dropLeadingWs l → c ∈ l := by
  intro l
  induction l with
  | nil => intro h; simp [dropLeadingWs] at h
  | cons a rest ih =>
    intro h
    rw [dropLeadingWs] at h
    by_cases ha : pyIsSpace a
    · rw [if_pos ha] at h
      exact List.mem_cons_of_mem a (ih h)
    · rwa [if_neg ha] at h

/-- Dropping leading whitespace preserves the `.myshopify.com` suffix. -/
theorem dropLeadingWs_msfx_suffix :
    ∀ {l : List Char}, msfx <:+ l → msfx <:+ dropLeadingWs l := by
  intro l
  induction l with
  | nil =>
    intro h
    rw [List.suffix_nil] at h
    exact absurd h (by decide)
  | cons a rest ih =>
    intro h
    rw [dropLeadingWs]
    by_cases ha : pyIsSpace a
    · rw [if_pos ha]
      apply ih
      obtain ⟨t, ht⟩ := h
      match t, ht with
      | [], ht =>
        have hm : msfx = a :: rest := by simpa using ht
        have ha' : a = '.' := by
          rw [show msfx = '.' :: S "myshopify.com" from rfl] at hm
          injection hm with h1 _
          exact h1.symm
        rw [ha'] at ha
        exact absurd ha (by decide)
      | b :: t', ht =>
        have ht' : t' ++ msfx = rest := by
          have := ht
          rw [List.cons_append] at this
          injection this with _ h2
        exact ⟨t', ht'⟩
    · rwa [if_neg ha]

/-- Every normalised domain ends in `.myshopify.com` and contains no `/`. -/
theorem normalize_domain_struct (s : List Char) :
    msfx <:+ normalize_domain s ∧ '/' ∉ normalize_domain s := by
  rw [normalize_domain]
  have hns := beforeSlash_no_slash (removeHttps (removeHttp (pyStrip s)))
  by_cases hs : List.isSuffixOf msfx (beforeSlash (removeHttps (removeHttp (pyStrip s)))) = true
  · rw [if_pos hs]
    exact ⟨List.isSuffixOf_iff_suffix.mp hs, hns⟩
  · rw [if_neg hs]
    refine ⟨List.suffix_append _ _, ?_⟩
    intro hm
    rcases List.mem_append.mp hm with h1 | h2
    · exact hns h1
    · exact absurd h2 (by decide)

/-- A second application of the normaliser only strips the leading whitespace
that the deletion of `http://`/`https://` occurrences may have exposed. -/
theorem normalize_domain_second_pass (s : List Char) :
    normalize_domain (normalize_domain s) = dropLeadingWs (normalize_domain s) := by
  obtain ⟨hsfx, hslash⟩ := normalize_domain_struct s
  have hsfx' : msfx <:+ dropLeadingWs (normalize_domain s) := dropLeadingWs_msfx_suffix hsfx
  have hslash' : '/' ∉ dropLeadingWs (normalize_domain s) :=
    fun hm => hslash (mem_of_mem_dropLeadingWs hm)
  have h1 : pyStrip (normalize_domain s) = dropLeadingWs (normalize_domain s) := by
    rw [pyStrip]
    obtain ⟨t, ht⟩ := hsfx'
    have hrev : (dropLeadingWs (normalize_domain s)).reverse = 'm' :: (S "oc.yfipohsym." ++ t.reverse) := by
      rw [← ht, List.reverse_append]
      rfl
    rw [hrev]
    rw [dropLeadingWs]
    rw [if_neg (by decide)]
    rw [← hrev, List.reverse_reverse]
  rw [normalize_domain]
  rw [h1]
  rw [removeHttp_id hslash', removeHttps_id hslash', beforeSlash_id _ hslash']
  rw [if_pos (List.isSuffixOf_iff_suffix.mpr hsfx')]

/-! ## Lemmas about the summary aggregation -/

/-- A non-empty list is not `isEmpty`. -/
theorem isEmpty_false_of_ne_nil {α : Type} {l : List α} (h : l ≠ []) : l.isEmpty = false := by
  cases l with
  | nil => exact absurd rfl h
  | cons a rest => rfl

/-- The resource count of a well-formed fetch result is the length of its
payload list. -/
theorem FetchOk.count {f : Option Json × Option (List Char)} {key : List Char}
    {items : List Json} (h : FetchOk f key items) :
    resourceCount f.1 key = .ok items.length := by
  rcases h with ⟨fs, hb, -, hlk⟩ | ⟨hb, -, hitems⟩
  · rw [hb]
    cases fs with
    | nil =>
      rcases hlk with ⟨-, hitems⟩ | hlk
      · subst hitems; rfl
      · simp [List.lookup] at hlk
    | cons kv rest =>
      rw [resourceCount]
      rw [if_pos (by simp [jTruthy])]
      rcases hlk with ⟨hnone, hitems⟩ | hlk
      · rw [pyGetD, hnone]
        subst hitems
        rfl
      · rw [pyGetD, hlk]
        rfl
  · rw [hb, hitems]
    rfl

/-- The resource list of a well-formed fetch result is its payload list. -/
theorem FetchOk.items {f : Option Json × Option (List Char)} {key : List Char}
    {items : List Json} (h : FetchOk f key items) :
    resourceItems f.1 key = .ok (Json.jarr items) := by
  rcases h with ⟨fs, hb, -, hlk⟩ | ⟨hb, -, hitems⟩
  · rw [hb]
    cases fs with
    | nil =>
      rcases hlk with ⟨-, hitems⟩ | hlk
      · subst hitems; rfl
      · simp [List.lookup] at hlk
    | cons kv rest =>
      rw [resourceItems]
      rw [if_pos (by simp [jTruthy])]
      rcases hlk with ⟨hnone, hitems⟩ | hlk
      · rw [pyGetD, hnone]
        subst hitems
        rfl
      · rw [pyGetD, hlk]
        rfl
  · rw [hb, hitems]
    rfl

/-- For a well-formed fetch result, "returned an error" is exactly what the
code's truthiness test on the error string sees. -/
theorem FetchOk.failed_iff {f : Option Json × Option (List Char)} {key : List Char}
    {items : List Json} (h : FetchOk f key items) :
    (fetchFailed f ↔ errTruthy f.2 = true) := by
  rcases h with ⟨fs, hb, he, -⟩ | ⟨hb, ⟨e, he, hne⟩, -⟩
  · rw [fetchFailed, hb, he]
    simp [errTruthy]
  · rw [fetchFailed, hb, he]
    simp [errTruthy, isEmpty_false_of_ne_nil hne]

/-- When all three error strings are truthy, the summary is exactly the demo
payload. -/
theorem summary_core_demo {f1 f2 f3 : Option Json × Option (List Char)}
    (h1 : errTruthy f1.2 = true) (h2 : errTruthy f2.2 = true) (h3 : errTruthy f3.2 = true) :
    summary_core f1 f2 f3 = .ok demoSummary := by
  obtain ⟨b1, e1⟩ := f1
  obtain ⟨b2, e2⟩ := f2
  obtain ⟨b3, e3⟩ := f3
  simp only at h1 h2 h3
  rw [summary_core]
  rw [h1, h2, h3]
  rfl

/-- When at least one error string is not truthy, the summary is built from
the three payload lists with `demo = false`. -/
theorem summary_core_real {f1 f2 f3 : Option Json × Option (List Char)}
    {i1 i2 i3 : List Json}
    (hd : (errTruthy f1.2 && errTruthy f2.2 && errTruthy f3.2) = false)
    (h1 : FetchOk f1 (S "products") i1) (h2 : FetchOk f2 (S "orders") i2)
    (h3 : FetchOk f3 (S "customers") i3) :
    summary_core f1 f2 f3 =
      .ok ⟨false, i1.length, i2.length, i3.length, Json.jarr i1, Json.jarr i2, Json.jarr i3⟩ := by
  have hc1 := h1.count
  have hc2 := h2.count
  have hc3 := h3.count
  have hi1 := h1.items
  have hi2 := h2.items
  have hi3 := h3.items
  obtain ⟨b1, e1⟩ := f1
  obtain ⟨b2, e2⟩ := f2
  obtain ⟨b3, e3⟩ := f3
  simp only at hd hc1 hc2 hc3 hi1 hi2 hi3
  rw [summary_core]
  rw [hd]
  simp only [Bool.false_eq_true, if_false]
  rw [hc1, hc2, hc3, hi1, hi2, hi3]

/-- An error escaping `pyLen` is a `TypeError`. -/
theorem pyLen_error {j : Json} {e : PyExc} (h : pyLen j = .error e) : e = .typeError := by
  match j with
  | .jarr xs => simp [pyLen] at h
  | .jstr s => simp [pyLen] at h
  | .jobj fs => simp [pyLen] at h
  | .jnull =>
    have hv : pyLen Json.jnull = Except.error PyExc.typeError := rfl
    rw [hv] at h
    injection h with hh
    exact hh.symm
  | .jbool bb =>
    have hv : pyLen (Json.jbool bb) = Except.error PyExc.typeError := rfl
    rw [hv] at h
    injection h with hh
    exact hh.symm
  | .jnum n =>
    have hv : pyLen (Json.jnum n) = Except.error PyExc.typeError := rfl
    rw [hv] at h
    injection h with hh
    exact hh.symm

/-- An error escaping `pyGetD` is an `AttributeError`. -/
theorem pyGetD_error {j : Json} {key : List Char} {dflt : Json} {e : PyExc}
    (h : pyGetD j key dflt = .error e) : e = .attributeError := by
  match j with
  | .jobj fs => simp [pyGetD] at h
  | .jnull => rw [show pyGetD Json.jnull key dflt = Except.error PyExc.attributeError from rfl] at h; injection h with hh; exact hh.symm
  | .jbool bb => rw [show pyGetD (Json.jbool bb) key dflt = Except.error PyExc.attributeError from rfl] at h; injection h with hh; exact hh.symm
  | .jnum n => rw [show pyGetD (Json.jnum n) key dflt = Except.error PyExc.attributeError from rfl] at h; injection h with hh; exact hh.symm
  | .jstr s => rw [show pyGetD (Json.jstr s) key dflt = Except.error PyExc.attributeError from rfl] at h; injection h with hh; exact hh.symm
  | .jarr xs => rw [show pyGetD (Json.jarr xs) key dflt = Except.error PyExc.attributeError from rfl] at h; injection h with hh; exact hh.symm

/-- An error escaping `resourceCount` is an `AttributeError` or `TypeError`. -/
theorem resourceCount_error {b : Option Json} {key : List Char} {e : PyExc}
    (h : resourceCount b key = .error e) : e = .attributeError ∨ e = .typeError := by
  match b with
  | none => simp [resourceCount] at h
  | some j =>
    rw [resourceCount] at h
    by_cases hj : jTruthy j = true
    · rw [if_pos hj] at h
      split at h
      · exact Or.inr (pyLen_error h)
      · rename_i ee heq
        injection h with hh
        subst hh
        exact Or.inl (pyGetD_error heq)
    · rw [if_neg hj] at h
      simp at h

/-- An error escaping `resourceItems` is an `AttributeError`. -/
theorem resourceItems_error {b : Option Json} {key : List Char} {e : PyExc}
    (h : resourceItems b key = .error e) : e = .attributeError := by
  match b with
  | none => simp [resourceItems] at h
  | some j =>
    rw [resourceItems] at h
    by_cases hj : jTruthy j = true
    · rw [if_pos hj] at h
      exact pyGetD_error h
    · rw [if_neg hj] at h
      simp at h

/-- An error escaping the payload construction is never an `HTTPException`. -/
theorem summary_core_error {f1 f2 f3 : Option Json × Option (List Char)} {e : PyExc}
    (h : summary_core f1 f2 f3 = .error e) : e = .attributeError ∨ e = .typeError := by
  obtain ⟨b1, e1⟩ := f1
  obtain ⟨b2, e2⟩ := f2
  obtain ⟨b3, e3⟩ := f3
  rw [summary_core] at h
  split at h
  · rename_i ee heq
    injection h with hh
    subst hh
    exact resourceCount_error heq
  · split at h
    · rename_i ee heq
      injection h with hh
      subst hh
      exact resourceCount_error heq
    · split at h
      · rename_i ee heq
        injection h with hh
        subst hh
        exact resourceCount_error heq
      · split at h
        · rename_i ee heq
          injection h with hh
          subst hh
          exact Or.inl (resourceItems_error heq)
        · split at h
          · rename_i ee heq
            injection h with hh
            subst hh
            exact Or.inl (resourceItems_error heq)
          · split at h
            · rename_i ee heq
              injection h with hh
              subst hh
              exact Or.inl (resourceItems_error heq)
            · simp at h

/-! ## Lemmas about the persistence operations -/

/-- `update_one` applied past a non-matching prefix hits the first match. -/
theorem updateFirstWhere_append {α : Type} (p : α → Bool) (g : α → α) :
    ∀ (l1 : List α) (d : α) (l2 : List α), (∀ a ∈ l1, p a = false) → p d = true →
      updateFirstWhere p g (l1 ++ d :: l2) = l1 ++ g d :: l2 := by
  intro l1
  induction l1 with
  | nil =>
    intro d l2 _ hd
    rw [List.nil_append, updateFirstWhere, if_pos hd, List.nil_append]
  | cons a rest ih =>
    intro d l2 h1 hd
    rw [List.cons_append, updateFirstWhere]
    rw [if_neg (by rw [h1 a (List.mem_cons_self a rest)]; simp)]
    rw [ih d l2 (fun b hb => h1 b (List.mem_cons_of_mem a hb)) hd, List.cons_append]

/-- `update_one` with an update that preserves `f` preserves the `f`-image of
the collection. -/
theorem map_updateFirstWhere {α β : Type} (p : α → Bool) (g : α → α) (f : α → β)
    (hf : ∀ a, f (g a) = f a) :
    ∀ l : List α, (updateFirstWhere p g l).map f = l.map f := by
  intro l
  induction l with
  | nil => rfl
  | cons a rest ih =>
    rw [updateFirstWhere]
    by_cases ha : p a = true
    · rw [if_pos ha, List.map_cons, List.map_cons, hf]
    · rw [if_neg ha, List.map_cons, List.map_cons, ih]


/-- Effect of the `update_one` by `_id` performed by connect when a record for
the domain already exists. -/
theorem save_update_state (s : DBState) (dn tok : List Char) (e0 : IntegrationDoc)
    (tl : List IntegrationDoc) (hW : WfIds s) (hfil : domFilter s dn = e0 :: tl) :
    domFilter (connUpdState s dn tok e0) dn = setDocFields dn tok e0 :: tl ∧
    (∀ dmn, dmn ≠ dn → domFilter (connUpdState s dn tok e0) dmn = domFilter s dmn) ∧
    WfIds (connUpdState s dn tok e0) := by
  rw [domFilter] at hfil
  obtain ⟨l1, l2, hsplit, hno, hpe, htl⟩ := List.filter_eq_cons_iff.mp hfil
  have hdom0 : e0.domain = dn := by simpa using hpe
  have hids : ∀ a ∈ l1, (a._id == e0._id) = false := by
    intro a ha
    have hpw := hW.2
    rw [hsplit, List.map_append, List.map_cons] at hpw
    have hcross := (List.pairwise_append.mp hpw).2.2
    have hne := hcross a._id (List.mem_map_of_mem _ ha) e0._id (List.mem_cons_self _ _)
    simpa using hne
  have hupd : updateFirstWhere (fun d => d._id == e0._id) (setDocFields dn tok)
      s.integrations = l1 ++ setDocFields dn tok e0 :: l2 := by
    rw [hsplit]
    exact updateFirstWhere_append _ _ l1 e0 l2 hids (by simp)
  have hints : (connUpdState s dn tok e0).integrations = l1 ++ setDocFields dn tok e0 :: l2 :=
    hupd
  have hmap : (connUpdState s dn tok e0).integrations.map (fun d => d._id) =
      s.integrations.map (fun d => d._id) := by
    show (updateFirstWhere (fun d => d._id == e0._id) (setDocFields dn tok)
      s.integrations).map (fun d => d._id) = s.integrations.map (fun d => d._id)
    exact map_updateFirstWhere _ _ _
      (fun a => (rfl : (setDocFields dn tok a)._id = a._id)) s.integrations
  refine ⟨?_, ?_, ?_⟩
  · rw [domFilter, hints, List.filter_append, List.filter_cons]
    rw [List.filter_eq_nil_iff.mpr hno]
    rw [if_pos (by simp [setDocFields])]
    rw [htl, List.nil_append]
  · intro dmn hdmn
    rw [domFilter, domFilter, hints, hsplit, List.filter_append, List.filter_append,
        List.filter_cons, List.filter_cons]
    rw [if_neg (by simp [setDocFields]; exact fun hh => hdmn hh.symm)]
    rw [if_neg (by rw [hdom0]; simp; exact fun hh => hdmn hh.symm)]
  · constructor
    · intro i hi
      rw [hmap] at hi
      exact hW.1 i hi
    · rw [show (connUpdState s dn tok e0).integrations.map (fun d => d._id) =
        s.integrations.map (fun d => d._id) from hmap]
      exact hW.2

/-- A Boolean that is not `true` is `false`. -/
theorem bool_eq_false_of_not {b : Bool} (h : ¬b = true) : b = false := by
  cases b with
  | false => rfl
  | true => exact absurd rfl h

/-- Effect of `create_document` when no record for the domain exists. -/
theorem save_insert_state (s : DBState) (dn tok : List Char) (hW : WfIds s)
    (hfil : domFilter s dn = []) :
    domFilter { s with integrations := s.integrations ++ [⟨s.nextId, dn, tok, none, none⟩], nextId := s.nextId + 1 } dn = [⟨s.nextId, dn, tok, none, none⟩] ∧
    (∀ dmn, dmn ≠ dn → domFilter { s with integrations := s.integrations ++ [⟨s.nextId, dn, tok, none, none⟩], nextId := s.nextId + 1 } dmn = domFilter s dmn) ∧
    WfIds { s with integrations := s.integrations ++ [⟨s.nextId, dn, tok, none, none⟩], nextId := s.nextId + 1 } := by
  rw [domFilter] at hfil
  refine ⟨?_, ?_, ?_⟩
  · show (s.integrations ++ [(⟨s.nextId, dn, tok, none, none⟩ : IntegrationDoc)]).filter
      (fun d => d.domain == dn) = _
    rw [List.filter_append, hfil, List.nil_append, List.filter_cons]
    rw [if_pos (by simp)]
    rfl
  · intro dmn hdmn
    show (s.integrations ++ [(⟨s.nextId, dn, tok, none, none⟩ : IntegrationDoc)]).filter
      (fun d => d.domain == dmn) = domFilter s dmn
    rw [List.filter_append, List.filter_cons]
    rw [if_neg (by simp; exact fun hh => hdmn hh.symm)]
    rw [show List.filter (fun d => d.domain == dmn) ([] : List IntegrationDoc) = [] from rfl]
    rw [List.append_nil]
    rfl
  · constructor
    · intro i hi
      show i < s.nextId + 1
      have hi' : i ∈ (s.integrations ++ [(⟨s.nextId, dn, tok, none, none⟩ : IntegrationDoc)]).map
        (fun d => d._id) := hi
      rw [List.map_append] at hi'
      rcases List.mem_append.mp hi' with h1 | h2
      · exact Nat.lt_trans (hW.1 i h1) (Nat.lt_succ_self _)
      · have : i = s.nextId := by simpa using h2
        omega
    · show ((s.integrations ++ [(⟨s.nextId, dn, tok, none, none⟩ : IntegrationDoc)]).map
        (fun d => d._id)).Pairwise (fun a b => a ≠ b)
      rw [List.map_append]
      refine List.pairwise_append.mpr ⟨hW.2, by simp, ?_⟩
      intro a ha b hb
      have hb' : b = s.nextId := by simpa using hb
      have ha' : a < s.nextId := hW.1 a ha
      omega

/-- Effect of the `update_one` keyed by domain that persists the shop name. -/
theorem name_update_state (s1 : DBState) (dn : List Char) (sn : Option Json)
    (d0 : IntegrationDoc) (tl : List IntegrationDoc)
    (hA : domFilter s1 dn = d0 :: tl) (hW : WfIds s1) :
    domFilter (connNameState s1 dn sn) dn = { d0 with store_name := sn } :: tl ∧
    (∀ dmn, dmn ≠ dn → domFilter (connNameState s1 dn sn) dmn = domFilter s1 dmn) ∧
    WfIds (connNameState s1 dn sn) := by
  rw [domFilter] at hA
  obtain ⟨l1, l2, hsplit, hno, hpe, htl⟩ := List.filter_eq_cons_iff.mp hA
  have hdom0 : d0.domain = dn := by simpa using hpe
  have hno' : ∀ a ∈ l1, ((fun d => d.domain == dn) a) = false :=
    fun a ha => bool_eq_false_of_not (hno a ha)
  have hints : (connNameState s1 dn sn).integrations =
      l1 ++ { d0 with store_name := sn } :: l2 := by
    show updateFirstWhere (fun d => d.domain == dn)
      (fun d => { d with store_name := sn }) s1.integrations = _
    rw [hsplit]
    exact updateFirstWhere_append _ _ l1 d0 l2 hno' hpe
  have hmap : (connNameState s1 dn sn).integrations.map (fun d => d._id) =
      s1.integrations.map (fun d => d._id) := by
    show (updateFirstWhere (fun d => d.domain == dn)
      (fun d => { d with store_name := sn }) s1.integrations).map (fun d => d._id) = _
    exact map_updateFirstWhere _ _ _
      (fun a => (rfl : ({ a with store_name := sn } : IntegrationDoc)._id = a._id))
      s1.integrations
  refine ⟨?_, ?_, ?_⟩
  · rw [domFilter, hints, List.filter_append, List.filter_cons]
    rw [List.filter_eq_nil_iff.mpr hno]
    rw [if_pos (by simpa using hdom0)]
    rw [htl, List.nil_append]
  · intro dmn hdmn
    rw [domFilter, domFilter, hints, hsplit, List.filter_append, List.filter_append,
        List.filter_cons, List.filter_cons]
    rw [if_neg (by show ¬(d0.domain == dmn) = true; rw [hdom0]; simp; exact fun hh => hdmn hh.symm)]
    rw [if_neg (by rw [hdom0]; simp; exact fun hh => hdmn hh.symm)]
  · constructor
    · intro i hi
      rw [hmap] at hi
      exact hW.1 i hi
    · rw [show (connNameState s1 dn sn).integrations.map (fun d => d._id) =
        s1.integrations.map (fun d => d._id) from hmap]
      exact hW.2

/-- Full characterisation of a successful `connect_shopify` call on a
configured database: some state is returned, id-wellformedness is preserved,
other domains are untouched, and the connected domain's first record carries
the supplied token, with the shop name persisted exactly when it is truthy. -/
theorem connect_spec (s : DBState) (raw tok : List Char) (data : Option Json)
    (err : Option (List Char)) (s' : Option DBState) (r : ConnectResp)
    (hW : WfIds s)
    (hok : connect_shopify (some s) raw tok (data, err) = .ok (s', r)) :
    ∃ s2 : DBState, s' = some s2 ∧ WfIds s2 ∧
      (∀ dmn, dmn ≠ normalize_domain raw → domFilter s2 dmn = domFilter s dmn) ∧
      ∃ snOpt idStr d,
        extractShopName data = .ok snOpt ∧
        r = ⟨true, idStr, normalize_domain raw, !errTruthy err, snOpt⟩ ∧
        domFilter s2 (normalize_domain raw) =
          d :: (domFilter s (normalize_domain raw)).tail ∧
        d.access_token = tok ∧ d.domain = normalize_domain raw ∧
        d.store_name = (if jTruthyOpt snOpt = true then snOpt else none) := by
  cases hfil : domFilter s (normalize_domain raw) with
  | cons e0 tl =>
    have hsv : save_integration (some s) (normalize_domain raw) tok =
        ((Nat.repr e0._id).data, some (connUpdState s (normalize_domain raw) tok e0)) := by
      rw [save_integration, hfil]
    obtain ⟨hA1, hA2, hA3⟩ := save_update_state s (normalize_domain raw) tok e0 tl hW hfil
    rw [connect_shopify] at hok
    rw [hsv] at hok
    dsimp only at hok
    cases hx : extractShopName data with
    | error e =>
      rw [hx] at hok
      simp at hok
    | ok snOpt =>
      rw [hx] at hok
      dsimp only at hok
      by_cases hsn : jTruthyOpt snOpt = true
      · rw [if_pos hsn] at hok
        injection hok with hp
        obtain ⟨hs', hr'⟩ := Prod.ext_iff.mp hp
        simp only at hs' hr'
        subst hs'
        subst hr'
        obtain ⟨hB1, hB2, hB3⟩ := name_update_state
          (connUpdState s (normalize_domain raw) tok e0) (normalize_domain raw) snOpt
          (setDocFields (normalize_domain raw) tok e0) tl hA1 hA3
        refine ⟨_, rfl, hB3, ?_, snOpt, (Nat.repr e0._id).data,
          { setDocFields (normalize_domain raw) tok e0 with store_name := snOpt },
          rfl, rfl, ?_, rfl, rfl, ?_⟩
        · intro dmn hdmn
          rw [hB2 dmn hdmn, hA2 dmn hdmn]
        · exact hB1
        · show snOpt = _
          rw [if_pos hsn]
      · rw [if_neg hsn] at hok
        injection hok with hp
        obtain ⟨hs', hr'⟩ := Prod.ext_iff.mp hp
        simp only at hs' hr'
        subst hs'
        subst hr'
        refine ⟨_, rfl, hA3, ?_, snOpt, (Nat.repr e0._id).data,
          setDocFields (normalize_domain raw) tok e0, rfl, rfl, ?_, rfl, rfl, ?_⟩
        · intro dmn hdmn
          exact hA2 dmn hdmn
        · exact hA1
        · show (none : Option Json) = _
          rw [if_neg hsn]
  | nil =>
    have hsv : save_integration (some s) (normalize_domain raw) tok =
        ((Nat.repr s.nextId).data,
         some { s with integrations := s.integrations ++ [⟨s.nextId, normalize_domain raw, tok, none, none⟩], nextId := s.nextId + 1 }) := by
      rw [save_integration, hfil, create_document_integration]
    obtain ⟨hA1, hA2, hA3⟩ := save_insert_state s (normalize_domain raw) tok hW hfil
    rw [connect_shopify] at hok
    rw [hsv] at hok
    dsimp only at hok
    cases hx : extractShopName data with
    | error e =>
      rw [hx] at hok
      simp at hok
    | ok snOpt =>
      rw [hx] at hok
      dsimp only at hok
      by_cases hsn : jTruthyOpt snOpt = true
      · rw [if_pos hsn] at hok
        injection hok with hp
        obtain ⟨hs', hr'⟩ := Prod.ext_iff.mp hp
        simp only at hs' hr'
        subst hs'
        subst hr'
        obtain ⟨hB1, hB2, hB3⟩ := name_update_state
          { s with integrations := s.integrations ++ [⟨s.nextId, normalize_domain raw, tok, none, none⟩], nextId := s.nextId + 1 }
          (normalize_domain raw) snOpt ⟨s.nextId, normalize_domain raw, tok, none, none⟩
          [] hA1 hA3
        refine ⟨_, rfl, hB3, ?_, snOpt, (Nat.repr s.nextId).data,
          { (⟨s.nextId, normalize_domain raw, tok, none, none⟩ : IntegrationDoc) with store_name := snOpt },
          rfl, rfl, ?_, rfl, rfl, ?_⟩
        · intro dmn hdmn
          rw [hB2 dmn hdmn, hA2 dmn hdmn]
        · exact hB1
        · show snOpt = _
          rw [if_pos hsn]
      · rw [if_neg hsn] at hok
        injection hok with hp
        obtain ⟨hs', hr'⟩ := Prod.ext_iff.mp hp
        simp only at hs' hr'
        subst hs'
        subst hr'
        refine ⟨_, rfl, hA3, ?_, snOpt, (Nat.repr s.nextId).data,
          ⟨s.nextId, normalize_domain raw, tok, none, none⟩, rfl, rfl, ?_, rfl, rfl, ?_⟩
        · intro dmn hdmn
          exact hA2 dmn hdmn
        · exact hA1
        · show (none : Option Json) = _
          rw [if_neg hsn]

/-! ## Claim theorems -/

/-- C3 counterexample: `normalize_domain` is not the prefix-stripping function
the claim describes.  On `" ahttp://b"` the code deletes the embedded
`http://` occurrence (and the leading space), producing `"ab.myshopify.com"`,
while stripping `http://`/`https://` only as prefixes would produce
`" ahttp:.myshopify.com"`. -/
theorem c3_counterexample :
    normalize_domain (S " ahttp://b") = S "ab.myshopify.com" ∧
    normalize_domain_claimC3 (S " ahttp://b") = S " ahttp:.myshopify.com" ∧
    normalize_domain (S " ahttp://b") ≠ normalize_domain_claimC3 (S " ahttp://b") :=
  ⟨by decide, by decide, by decide⟩

/-- C3 (amended): for every input string, `normalize_domain` strips leading and
trailing whitespace, deletes every occurrence of `http://` and then of
`https://` anywhere in the string (scanning left to right, non-overlapping),
takes the segment before the first `/` of what remains, and appends
`.myshopify.com` unless the result already ends with it; any string is
accepted with no validation of character set or length. -/
theorem c3_replace_all_occurrences (s : List Char) :
    normalize_domain s = normalize_domain_amended s := by
  rw [normalize_domain, normalize_domain_amended]
  rw [removeHttp_eq_pyReplaceDel, removeHttps_eq_pyReplaceDel]

/-- C6 counterexample: `normalize_domain` is not idempotent.  Deleting the
`http://` occurrence in `"http:// a"` exposes a leading space, so the first
pass yields `" a.myshopify.com"` and the second pass strips the space. -/
theorem c6_counterexample :
    normalize_domain (S "http:// a") = S " a.myshopify.com" ∧
    normalize_domain (normalize_domain (S "http:// a")) = S "a.myshopify.com" ∧
    normalize_domain (normalize_domain (S "http:// a")) ≠ normalize_domain (S "http:// a") :=
  ⟨by decide, by decide, by decide⟩

/-- C6 (amended): a second application of `normalize_domain` only strips the
leading whitespace of the first result (so idempotence holds exactly when the
normalised form has no leading whitespace), and the three concrete
normalisations of the claim hold. -/
theorem c6_idempotent_up_to_leading_ws :
    (∀ x : List Char,
      normalize_domain (normalize_domain x) = dropLeadingWs (normalize_domain x)) ∧
    normalize_domain (S "https://acme.myshopify.com/admin") = S "acme.myshopify.com" ∧
    normalize_domain (S "acme") = S "acme.myshopify.com" ∧
    normalize_domain (S "acme.myshopify.com") = S "acme.myshopify.com" :=
  ⟨normalize_domain_second_pass, by decide, by decide, by decide⟩

/-- C9: the Shopify client contract.  On HTTP 200 with a parseable body it
returns the parsed JSON and no error; on any other status it returns no body
and the error string `"HTTP {status}: "` followed by the first 200 characters
of the response text; on a transport exception it returns no body and the
exception's description; and every call returns either a body or an error. -/
theorem c9_shopify_get_contract :
    (∀ (text : List Char) (j : Json),
      shopify_get (.response 200 text (.ok j)) = (some j, none)) ∧
    (∀ (status : Nat) (text : List Char) (jsonVal : Except (List Char) Json),
      status ≠ 200 →
      shopify_get (.response status text jsonVal) =
        (none, some (S "HTTP " ++ (Nat.repr status).data ++ S ": " ++ text.take 200))) ∧
    (∀ msg : List Char, shopify_get (.raised msg) = (none, some msg)) ∧
    (∀ o : ReqOutcome,
      (∃ j, shopify_get o = (some j, none)) ∨ (∃ e, shopify_get o = (none, some e))) := by
  refine ⟨fun text j => rfl, ?_, fun msg => rfl, ?_⟩
  · intro status text jsonVal h
    have hatt : shopify_get_attempt (.response status text jsonVal) =
        .ok (none, some (S "HTTP " ++ (Nat.repr status).data ++ S ": " ++ text.take 200)) := by
      rw [shopify_get_attempt.eq_def]
      dsimp only
      rw [if_neg (by simpa using h)]
    rw [shopify_get, hatt]
  · intro o
    match o with
    | .raised msg => exact Or.inr ⟨msg, rfl⟩
    | .response status text jsonVal =>
      by_cases hs : (status == 200) = true
      · match jsonVal with
        | .ok j =>
          left
          exact ⟨j, by rw [shopify_get, shopify_get_attempt, if_pos hs]⟩
        | .error e =>
          right
          exact ⟨e, by rw [shopify_get, shopify_get_attempt, if_pos hs]⟩
      · right
        refine ⟨S "HTTP " ++ (Nat.repr status).data ++ S ": " ++ text.take 200, ?_⟩
        have hatt2 : shopify_get_attempt (.response status text jsonVal) =
            .ok (none, some (S "HTTP " ++ (Nat.repr status).data ++ S ": " ++ text.take 200)) := by
          rw [shopify_get_attempt.eq_def]
          dsimp only
          rw [if_neg hs]
        rw [shopify_get, hatt2]

/-- C9 witness: a concrete 404 response yields the expected error string. -/
theorem c9_witness :
    shopify_get (.response 404 (S "Not Found") (.ok Json.jnull)) =
      (none, some (S "HTTP 404: Not Found")) := by
  rw [c9_shopify_get_contract.2.1 404 (S "Not Found") (.ok Json.jnull) (by decide)]
  rfl

/-- C10: `shopify_get` is total at its interface — whatever the `try` block
does, the caller receives a `(body, error)` pair: an exception value `e`
escaping the block (transport failure or JSON decoding failure on a 200
response) becomes `(none, str e)`, and a normal result is passed through. -/
theorem c10_shopify_get_total :
    (∀ (o : ReqOutcome) (e : List Char),
      shopify_get_attempt o = .error e → shopify_get o = (none, some e)) ∧
    (∀ (o : ReqOutcome) (r : Option Json × Option (List Char)),
      shopify_get_attempt o = .ok r → shopify_get o = r) := by
  constructor
  · intro o e h
    rw [shopify_get, h]
  · intro o r h
    rw [shopify_get, h]

/-- C10 witness: a JSON decode failure on a 200 response is caught and turned
into an error string. -/
theorem c10_witness :
    shopify_get (.response 200 (S "not json") (.error (S "Expecting value"))) =
      (none, some (S "Expecting value")) :=
  c10_shopify_get_total.1 _ _ rfl

/-- C2 (code bug): with no database configured, a connect whose verification
succeeds with a truthy shop name raises `TypeError` — line 97 subscripts the
`None` database handle without the `if db` guard used everywhere else — so the
response is an error rather than the degraded-mode success the spec requires. -/
theorem c2_connect_no_db_raises :
    connect_shopify none (S "acme") (S "tok")
      (some (Json.jobj [(S "shop", Json.jobj [(S "name", Json.jstr (S "Acme"))])]), none) =
      .error .typeError := rfl

/-- C4: a summary request fails with the 404 `HTTPException` carrying exactly
`"Integration not found. Connect your store first."` if and only if no
integration record exists for the normalized domain; with a record present no
`HTTPException` (of any status) is ever raised. -/
theorem c4_not_found_iff (st : Option DBState) (raw : List Char)
    (f1 f2 f3 : Option Json × Option (List Char)) (cacheFail : Bool) :
    (shopify_summary st raw f1 f2 f3 cacheFail =
        .error (.httpException 404 notFoundMsg) ↔
      findIntegration st (normalize_domain raw) = none) ∧
    (∀ (status : Nat) (detail : List Char),
      shopify_summary st raw f1 f2 f3 cacheFail = .error (.httpException status detail) →
      findIntegration st (normalize_domain raw) = none) := by
  have hmain : ∀ (status : Nat) (detail : List Char),
      shopify_summary st raw f1 f2 f3 cacheFail = .error (.httpException status detail) →
      findIntegration st (normalize_domain raw) = none := by
    intro status detail h
    rw [shopify_summary] at h
    cases hfind : findIntegration st (normalize_domain raw) with
    | none => rfl
    | some integ =>
      rw [hfind] at h
      dsimp only at h
      cases hcore : summary_core f1 f2 f3 with
      | error e =>
        rw [hcore] at h
        injection h with he
        rcases summary_core_error hcore with h1 | h1 <;> rw [he] at h1 <;>
          exact PyExc.noConfusion h1
      | ok resp =>
        rw [hcore] at h
        simp at h
  refine ⟨⟨hmain 404 notFoundMsg, ?_⟩, hmain⟩
  intro hnone
  rw [shopify_summary, hnone]

/-- C4 witness: with no database (hence no record) the request fails with the
fixed 404 error. -/
theorem c4_witness :
    shopify_summary none (S "nope") (none, none) (none, none) (none, none) false =
      .error (.httpException 404 notFoundMsg) :=
  (c4_not_found_iff none (S "nope") (none, none) (none, none) (none, none) false).1.mpr rfl

/-- C5: the returned summary value and its success status do not depend on the
outcome of the best-effort cache write — a failure while upserting the
`DataSnapshot` (including the persistence adapter being unavailable, which
both runs share through `st`) is swallowed. -/
theorem c5_cache_write_swallowed (st : Option DBState) (raw : List Char)
    (f1 f2 f3 : Option Json × Option (List Char)) (cf1 cf2 : Bool) :
    Except.map (fun p => p.2) (shopify_summary st raw f1 f2 f3 cf1) =
      Except.map (fun p => p.2) (shopify_summary st raw f1 f2 f3 cf2) := by
  simp only [shopify_summary]
  cases findIntegration st (normalize_domain raw) with
  | none => rfl
  | some integ =>
    dsimp only
    cases summary_core f1 f2 f3 with
    | error e => rfl
    | ok resp => rfl

/-- C1: for a summary request whose integration record exists (and whose
fetch results are well-formed Shopify responses), the response is a success
whose payload is the fixed hard-coded demo payload with `demo = true` if and
only if all three upstream fetches returned an error; if even one succeeded,
`demo = false` and each resource independently carries its own payload list
(empty for a resource whose own fetch failed), with counts equal to the list
lengths. -/
theorem c1_demo_fallback (st : Option DBState) (raw : List Char)
    (f1 f2 f3 : Option Json × Option (List Char)) (cacheFail : Bool)
    (integ : IntegrationDoc) (i1 i2 i3 : List Json)
    (hInteg : findIntegration st (normalize_domain raw) = some integ)
    (h1 : FetchOk f1 (S "products") i1) (h2 : FetchOk f2 (S "orders") i2)
    (h3 : FetchOk f3 (S "customers") i3) :
    ∃ stOut resp, shopify_summary st raw f1 f2 f3 cacheFail = .ok (stOut, resp) ∧
      (resp.demo = true ↔ fetchFailed f1 ∧ fetchFailed f2 ∧ fetchFailed f3) ∧
      (fetchFailed f1 ∧ fetchFailed f2 ∧ fetchFailed f3 → resp = demoSummary) ∧
      (¬(fetchFailed f1 ∧ fetchFailed f2 ∧ fetchFailed f3) →
        resp = ⟨false, i1.length, i2.length, i3.length,
                Json.jarr i1, Json.jarr i2, Json.jarr i3⟩) := by
  by_cases hd : (errTruthy f1.2 && errTruthy f2.2 && errTruthy f3.2) = true
  · obtain ⟨⟨hd1, hd2⟩, hd3⟩ :
        (errTruthy f1.2 = true ∧ errTruthy f2.2 = true) ∧ errTruthy f3.2 = true := by
      simpa [Bool.and_eq_true] using hd
    have hall : fetchFailed f1 ∧ fetchFailed f2 ∧ fetchFailed f3 :=
      ⟨h1.failed_iff.mpr hd1, h2.failed_iff.mpr hd2, h3.failed_iff.mpr hd3⟩
    have hcore := summary_core_demo hd1 hd2 hd3
    have hsum : shopify_summary st raw f1 f2 f3 cacheFail =
        .ok (cache_snapshot st (normalize_domain raw) demoSummary cacheFail, demoSummary) := by
      rw [shopify_summary, hInteg]
      dsimp only
      rw [hcore]
    refine ⟨_, demoSummary, hsum, ?_, fun _ => rfl, fun hcon => absurd hall hcon⟩
    exact ⟨fun _ => hall, fun _ => rfl⟩
  · have hd' : (errTruthy f1.2 && errTruthy f2.2 && errTruthy f3.2) = false :=
      bool_eq_false_of_not hd
    have hnall : ¬(fetchFailed f1 ∧ fetchFailed f2 ∧ fetchFailed f3) := by
      intro hall
      apply hd
      rw [h1.failed_iff.mp hall.1, h2.failed_iff.mp hall.2.1, h3.failed_iff.mp hall.2.2]
      rfl
    have hcore := summary_core_real hd' h1 h2 h3
    have hsum : shopify_summary st raw f1 f2 f3 cacheFail =
        .ok (cache_snapshot st (normalize_domain raw)
              ⟨false, i1.length, i2.length, i3.length,
               Json.jarr i1, Json.jarr i2, Json.jarr i3⟩ cacheFail,
             ⟨false, i1.length, i2.length, i3.length,
              Json.jarr i1, Json.jarr i2, Json.jarr i3⟩) := by
      rw [shopify_summary, hInteg]
      dsimp only
      rw [hcore]
    refine ⟨_, _, hsum, ?_, fun hall => absurd hall hnall, fun _ => rfl⟩
    constructor
    · intro hfalse
      exact absurd hfalse (by simp)
    · intro hall
      exact absurd hall hnall

/-- C1 witness: with a stored integration for `acme.myshopify.com`, a
successful products fetch and failing orders/customers fetches, the summary is
real (`demo = false`), products holds the one returned item and the failed
siblings are empty. -/
theorem c1_witness :
    ∃ stOut resp,
      shopify_summary (some ⟨[⟨0, S "acme.myshopify.com", S "tok", none, none⟩], [], 1⟩)
        (S "acme")
        (some (Json.jobj [(S "products", Json.jarr [Json.jnull])]), none)
        (none, some (S "boom")) (none, some (S "down")) false = .ok (stOut, resp) ∧
      (resp.demo = true ↔
        fetchFailed (some (Json.jobj [(S "products", Json.jarr [Json.jnull])]), none) ∧
        fetchFailed (none, some (S "boom")) ∧ fetchFailed (none, some (S "down"))) ∧
      ((fetchFailed (some (Json.jobj [(S "products", Json.jarr [Json.jnull])]), none) ∧
        fetchFailed (none, some (S "boom")) ∧ fetchFailed (none, some (S "down"))) →
        resp = demoSummary) ∧
      (¬(fetchFailed (some (Json.jobj [(S "products", Json.jarr [Json.jnull])]), none) ∧
         fetchFailed (none, some (S "boom")) ∧ fetchFailed (none, some (S "down"))) →
        resp = ⟨false, 1, 0, 0, Json.jarr [Json.jnull], Json.jarr [], Json.jarr []⟩) :=
  c1_demo_fallback _ _ _ _ _ false ⟨0, S "acme.myshopify.com", S "tok", none, none⟩
    [Json.jnull] [] [] rfl
    (Or.inl ⟨_, rfl, rfl, Or.inr rfl⟩)
    (Or.inr ⟨rfl, ⟨S "boom", rfl, by decide⟩, rfl⟩)
    (Or.inr ⟨rfl, ⟨S "down", rfl, by decide⟩, rfl⟩)

/-- A list of length at most one has an empty tail. -/
theorem tail_eq_nil_of_length_le_one {α : Type} {l : List α} (h : l.length ≤ 1) :
    l.tail = [] := by
  match l with
  | [] => rfl
  | [a] => rfl
  | a :: b :: r => simp at h

/-- C7: starting from a store with unique ids that holds at most one
integration record per domain, two completed connects for the same raw domain
preserve the at-most-one invariant (after each call) and leave exactly one
record for that domain, carrying the token of the latest call. -/
theorem c7_connect_idempotent (s s1 s2 : DBState) (raw t1 t2 : List Char)
    (f1 f2 : Option Json × Option (List Char)) (r1 r2 : ConnectResp)
    (hW : WfIds s) (hInv : InvOneRec s)
    (h1 : connect_shopify (some s) raw t1 f1 = .ok (some s1, r1))
    (h2 : connect_shopify (some s1) raw t2 f2 = .ok (some s2, r2)) :
    InvOneRec s1 ∧ InvOneRec s2 ∧
      ∃ d, domFilter s2 (normalize_domain raw) = [d] ∧ d.access_token = t2 := by
  obtain ⟨s1', hs1', hW1, hun1, -, -, d1, -, -, hfd1, -, -, -⟩ :=
    connect_spec s raw t1 f1.1 f1.2 (some s1) r1 hW h1
  injection hs1' with heq1
  subst heq1
  have htail1 : (domFilter s (normalize_domain raw)).tail = [] :=
    tail_eq_nil_of_length_le_one (hInv (normalize_domain raw))
  rw [htail1] at hfd1
  have hInv1 : InvOneRec s1 := by
    intro dmn
    by_cases hdm : dmn = normalize_domain raw
    · rw [hdm, hfd1]
      simp
    · rw [hun1 dmn hdm]
      exact hInv dmn
  obtain ⟨s2', hs2', hW2, hun2, -, -, d2, -, -, hfd2, htok2, -, -⟩ :=
    connect_spec s1 raw t2 f2.1 f2.2 (some s2) r2 hW1 h2
  injection hs2' with heq2
  subst heq2
  have htail2 : (domFilter s1 (normalize_domain raw)).tail = [] :=
    tail_eq_nil_of_length_le_one (hInv1 (normalize_domain raw))
  rw [htail2] at hfd2
  have hInv2 : InvOneRec s2 := by
    intro dmn
    by_cases hdm : dmn = normalize_domain raw
    · rw [hdm, hfd2]
      simp
    · rw [hun2 dmn hdm]
      exact hInv1 dmn
  exact ⟨hInv1, hInv2, d2, hfd2, htok2⟩

/-- C7 witness: two concrete connects for `"acme"` with tokens `"t1"` then
`"t2"` on an initially empty store leave exactly one record with token
`"t2"`. -/
theorem c7_witness :
    InvOneRec ⟨[⟨0, S "acme.myshopify.com", S "t1", none, none⟩], [], 1⟩ ∧
    InvOneRec ⟨[⟨0, S "acme.myshopify.com", S "t2", none, none⟩], [], 1⟩ ∧
    ∃ d, domFilter ⟨[⟨0, S "acme.myshopify.com", S "t2", none, none⟩], [], 1⟩
        (normalize_domain (S "acme")) = [d] ∧ d.access_token = S "t2" :=
  c7_connect_idempotent ⟨[], [], 0⟩
    ⟨[⟨0, S "acme.myshopify.com", S "t1", none, none⟩], [], 1⟩
    ⟨[⟨0, S "acme.myshopify.com", S "t2", none, none⟩], [], 1⟩
    (S "acme") (S "t1") (S "t2") (none, some (S "nope")) (none, some (S "nope2"))
    ⟨true, S "0", S "acme.myshopify.com", false, none⟩
    ⟨true, S "0", S "acme.myshopify.com", false, none⟩
    ⟨by intro i hi; simp at hi, by simp⟩
    (by intro dmn; simp [domFilter])
    rfl rfl

/-- With a configured database, the save step always yields a state. -/
theorem save_integration_some (s : DBState) (dn tok : List Char) :
    ∃ s1 : DBState, (save_integration (some s) dn tok).2 = some s1 := by
  rw [save_integration]
  cases hfil : domFilter s dn with
  | cons e0 tl => exact ⟨connUpdState s dn tok e0, rfl⟩
  | nil =>
    rw [create_document_integration]
    exact ⟨_, rfl⟩

/-- With a configured database and an extraction of the shop name that does
not raise, connect always returns a response. -/
theorem connect_shopify_ok (s : DBState) (raw tok : List Char)
    (data : Option Json) (err : Option (List Char)) (ro : Option Json)
    (hxo : extractShopName data = .ok ro) :
    ∃ out, connect_shopify (some s) raw tok (data, err) = .ok out := by
  rw [connect_shopify]
  obtain ⟨s1, hs1⟩ := save_integration_some s (normalize_domain raw) tok
  rcases hsv : save_integration (some s) (normalize_domain raw) tok with ⟨iid, st1⟩
  rw [hsv] at hs1
  dsimp only at hs1
  dsimp only
  rw [hxo]
  dsimp only
  by_cases hsn : jTruthyOpt ro = true
  · rw [if_pos hsn, hs1]
    exact ⟨_, rfl⟩
  · rw [if_neg hsn]
    exact ⟨_, rfl⟩

/-- C8: for every connect on a configured store (with a verification response
whose shop-name extraction does not raise), the call succeeds and the
integration record keyed by the normalized domain is persisted with the
supplied token; if the verification call failed, `verified = false` and
`store_name` is null; if it succeeded, `verified = true`, and a (truthy) shop
name present in the response is both persisted onto the record and returned. -/
theorem c8_connect_verification (s : DBState) (raw tok : List Char)
    (f : Option Json × Option (List Char)) (hW : WfIds s)
    (hx : ∃ ro, extractShopName f.1 = .ok ro) :
    ∃ st' d resp,
      connect_shopify (some s) raw tok f = .ok (some st', resp) ∧
      findIntegration (some st') (normalize_domain raw) = some d ∧
      d.access_token = tok ∧
      (∀ e, f.2 = some e → e ≠ [] → resp.verified = false) ∧
      (f.2 = none → resp.verified = true) ∧
      (f.1 = none → resp.store_name = none) ∧
      (∀ nm, extractShopName f.1 = .ok (some nm) → jTruthy nm = true →
        resp.store_name = some nm ∧ d.store_name = some nm) := by
  obtain ⟨ro, hxo⟩ := hx
  obtain ⟨⟨st0, r0⟩, hok⟩ := connect_shopify_ok s raw tok f.1 f.2 ro hxo
  obtain ⟨s2, hs2, hW2, hun2, snOpt, idStr, d, hsx, hr, hfd, htok, hdom, hsn⟩ :=
    connect_spec s raw tok f.1 f.2 st0 r0 hW hok
  subst hs2
  refine ⟨s2, d, r0, hok, ?_, htok, ?_, ?_, ?_, ?_⟩
  · rw [findIntegration, hfd]
    rfl
  · intro e he hne
    rw [hr]
    show (!errTruthy f.2) = false
    rw [he, errTruthy, isEmpty_false_of_ne_nil hne]
    rfl
  · intro he
    rw [hr]
    show (!errTruthy f.2) = true
    rw [he]
    rfl
  · intro hb
    rw [hr]
    show snOpt = none
    rw [hb] at hsx
    rw [show extractShopName none = Except.ok none from rfl] at hsx
    injection hsx with hh
    exact hh.symm
  · intro nm hnm htr
    rw [hnm] at hsx
    injection hsx with hh
    constructor
    · rw [hr]
      show snOpt = some nm
      exact hh.symm
    · rw [hsn, ← hh]
      rw [if_pos (show jTruthyOpt (some nm) = true from htr)]

/-- C8 witness: a concrete connect on an empty store whose verification
returns shop name `"Acme"` persists the record with the token and stores and
returns the name. -/
theorem c8_witness :
    ∃ st' d resp,
      connect_shopify (some ⟨[], [], 0⟩) (S "acme") (S "tok")
        (some (Json.jobj [(S "shop", Json.jobj [(S "name", Json.jstr (S "Acme"))])]), none) =
        .ok (some st', resp) ∧
      findIntegration (some st') (normalize_domain (S "acme")) = some d ∧
      d.access_token = S "tok" ∧
      (∀ e, (none : Option (List Char)) = some e → e ≠ [] → resp.verified = false) ∧
      ((none : Option (List Char)) = none → resp.verified = true) ∧
      ((some (Json.jobj [(S "shop", Json.jobj [(S "name", Json.jstr (S "Acme"))])]) :
          Option Json) = none → resp.store_name = none) ∧
      (∀ nm,
        extractShopName
            (some (Json.jobj [(S "shop", Json.jobj [(S "name", Json.jstr (S "Acme"))])])) =
          .ok (some nm) → jTruthy nm = true →
        resp.store_name = some nm ∧ d.store_name = some nm) :=
  c8_connect_verification ⟨[], [], 0⟩ (S "acme") (S "tok") _
    ⟨by intro i hi; simp at hi, by simp⟩
    ⟨some (Json.jstr (S "Acme")), rfl⟩
